import Mathlib

/-!
Verification development for `tensorforce/models/pg_prob_ratio_model.py`,
the likelihood-ratio policy-gradient model `PGProbRatioModel` (TRPO/PPO
style).  The TensorFlow tensor computations are shallowly embedded:
elementwise tensor operations become operations on scalars or on `List`s
of per-instance scalars, `tf.reduce_mean` becomes a list mean,
`tf.stop_gradient` is the identity on forward values, and `tf.exp` is
`Real.exp`.  The action-channel dictionary `self.distributions` is
modelled as a lookup function from channel names (here `ℕ`) together with
the insertion-ordered list of its keys; Python's `sorted` on the dict is
sorting of that key list.
-/

namespace PGProbRatio

variable {α : Type} [LinearOrderedField α]

/-- Embeds `tf.clip_by_value(t, clip_value_min, clip_value_max)`:
the value `t` clamped into `[lo, hi]`, computed as `min (max t lo) hi`. -/
def clip_by_value (t lo hi : α) : α := min (max t lo) hi

/-- Embeds `tf.reduce_mean` applied along one axis holding the given
entries: the arithmetic mean of the list. -/
def reduce_mean (xs : List α) : α := xs.sum / (xs.length : α)

/-- Embeds lines 121-129 of `tf_loss_per_instance`: the per-instance loss
from the combined per-instance prob ratio and the instance's reward,
with the optional likelihood-ratio clipping threshold.  `none` is
`self.likelihood_ratio_clipping is None`; for `some c` the ratio is
clipped to `[1/(1+c), 1+c]` and the minimum of the signed products is
negated. -/
def loss_final (clip : Option α) (prob_ratio reward : α) : α :=
  match clip with
  | none => -prob_ratio * reward
  | some c =>
      -(min (prob_ratio * reward)
          (clip_by_value prob_ratio (1 / (1 + c)) (1 + c) * reward))

/-- Embeds lines 162-170 of `tf_compare`: the per-instance gain from the
per-instance prob ratio and the (estimated) reward, with the same
optional clipping as in `loss_final` but without the negation. -/
def gain_per_instance (clip : Option α) (prob_ratio reward : α) : α :=
  match clip with
  | none => prob_ratio * reward
  | some c =>
      min (prob_ratio * reward)
        (clip_by_value prob_ratio (1 / (1 + c)) (1 + c) * reward)

/-- Embeds lines 162-175 of `tf_compare`, given the batch vectors of
per-instance prob ratios (`tf.exp(log_prob - reference)`, embedded
separately as `compare_prob_ratio`) and of estimated rewards: the
elementwise gain, its batch mean (`tf.reduce_mean` over axis 0), and then
`gain -= tf.add_n(list(losses.values()))` guarded by `len(losses) > 0`,
where `reg_losses` lists the values of the regularization-loss mapping. -/
def compare_gain (clip : Option α) (prob_ratios rewards reg_losses : List α) : α :=
  let gains := List.zipWith (gain_per_instance clip) prob_ratios rewards
  let gain := reduce_mean gains
  if 0 < reg_losses.length then gain - reg_losses.sum else gain

/-- Embeds `util.prod(util.shape(x)[1:])` on line 117: the number of
entries per instance after collapsing all non-batch dimensions. -/
def collapsed_size (shape : List Nat) : Nat := shape.prod

/-- Embeds `tf.reshape(tensor=x, shape=(-1, collapsed_size))` acting on
one instance: the instance's row keeps all of its (row-major) entries,
the reshape only merges the non-batch axes into one axis. -/
def reshape_collapse (entries : List α) : List α := entries

/-- Embeds lines 117-120 of `tf_loss_per_instance` for one instance, as a
function of the per-channel collapsed prob-ratio rows: each channel
contributes its collapsed row, `tf.concat(axis=1)` joins the rows and
`tf.reduce_mean(axis=1)` averages over all joined entries. -/
def combined_prob_ratio (rows : List (List α)) : α :=
  reduce_mean (List.flatten (rows.map reshape_collapse))

/-- Follows the spec's words for lines 117-120 (for comparison with
`combined_prob_ratio`, which follows the code): each channel is collapsed
to a single scalar per instance and the channels are then averaged with
equal weight. -/
def combined_prob_ratio_claim (rows : List (List α)) : α :=
  reduce_mean (rows.map reduce_mean)

/-- Follows the spec's words `clamp(ratio, 1/(1+eps), 1+eps)` (for
comparison with the code's `clip_by_value`): the standard clamp written
as `max lo (min x hi)`. -/
def clamp_spec (x lo hi : α) : α := max lo (min x hi)

/-- Embeds the construction-time state of `PGProbRatioModel` relevant to
clipping: the stored field `self.likelihood_ratio_clipping` (line 60). -/
structure PGProbRatioModel (α : Type) where
  likelihood_ratio_clipping : Option α

/-- Embeds the `AssertionError` raised when the `assert` on line 59 of
`__init__` fails. -/
inductive InitError : Type
  | assertionError
deriving DecidableEq

/-- Embeds lines 58-60 of `PGProbRatioModel.__init__`:
`assert likelihood_ratio_clipping is None or likelihood_ratio_clipping > 0.0`,
after which the value is stored unmodified in the new model. -/
def init (clip : Option α) : Except InitError (PGProbRatioModel α) :=
  match clip with
  | none => Except.ok ⟨none⟩
  | some c => if 0 < c then Except.ok ⟨some c⟩ else Except.error InitError.assertionError

/-- Embeds `tf.stop_gradient(input=x)` (line 115): the identity on the
forward value (it only blocks gradient flow). -/
def stop_gradient (x : ℝ) : ℝ := x

/-- Embeds line 116 of `tf_loss_per_instance` for one entry: the prob
ratio `tf.exp(log_prob - fixed_log_prob)` where
`fixed_log_prob = tf.stop_gradient(log_prob)`. -/
noncomputable def prob_ratio_entry (log_prob : ℝ) : ℝ :=
  Real.exp (log_prob - stop_gradient log_prob)

/-- Embeds lines 108-120 of `tf_loss_per_instance` for one instance, as a
function of the per-channel collapsed rows of log-probabilities of the
taken actions: per channel the entrywise prob ratio is formed, reshaped,
and the rows are concatenated and averaged to one combined ratio. -/
noncomputable def loss_combined_ratio (log_prob_rows : List (List ℝ)) : ℝ :=
  reduce_mean
    (List.flatten (log_prob_rows.map (fun row => reshape_collapse (row.map prob_ratio_entry))))

/-- Embeds `tf_loss_per_instance` (lines 106-129) for one instance:
the combined per-instance prob ratio fed into the final loss step. -/
noncomputable def tf_loss_per_instance
    (clip : Option ℝ) (log_prob_rows : List (List ℝ)) (reward : ℝ) : ℝ :=
  loss_final clip (loss_combined_ratio log_prob_rows) reward

/-- Embeds `sorted(self.distributions)` (lines 134 and 153): the channel
names in ascending sorted order. -/
def sorted_names (names : List ℕ) : List ℕ := List.insertionSort (· ≤ ·) names

/-- Embeds `tf_reference` (lines 131-141) for one instance.  The dict
`self.distributions` is the lookup `log_prob_row` (per channel name, the
channel's collapsed row of log-probabilities of the taken action for this
instance) plus the insertion-ordered key list `names`.  Channels are
visited in name-sorted order, their rows reshaped, concatenated along
axis 1 and averaged to one scalar per instance. -/
def tf_reference (log_prob_row : ℕ → List α) (names : List ℕ) : α :=
  reduce_mean
    (List.flatten ((sorted_names names).map (fun n => reshape_collapse (log_prob_row n))))

/-- Embeds lines 152-160 of `tf_compare`: the per-instance summary
log-probability, recomputed identically to `tf_reference`. -/
def compare_log_prob (log_prob_row : ℕ → List α) (names : List ℕ) : α :=
  reduce_mean
    (List.flatten ((sorted_names names).map (fun n => reshape_collapse (log_prob_row n))))

/-- Embeds line 161 of `tf_compare`: the per-instance prob ratio
`tf.exp(log_prob - reference)` against the supplied reference value. -/
noncomputable def compare_prob_ratio
    (log_prob_row : ℕ → List ℝ) (names : List ℕ) (reference : ℝ) : ℝ :=
  Real.exp (compare_log_prob log_prob_row names - reference)

/-- Embeds lines 151-170 of `tf_compare` for one instance, composed: the
per-instance gain built from the recomputed prob ratio and the estimated
reward. -/
noncomputable def compare_gain_per_instance
    (clip : Option ℝ) (log_prob_row : ℕ → List ℝ) (names : List ℕ)
    (reference reward : ℝ) : ℝ :=
  gain_per_instance clip (compare_prob_ratio log_prob_row names reference) reward

/-- Embeds `arguments[k] = v` on a string-keyed Python dict modelled as a
lookup function. -/
def dict_set {V : Type} (d : String → Option V) (k : String) (v : V) :
    String → Option V :=
  fun q => if q = k then some v else d q

/-- Embeds `optimizer_arguments` (lines 177-189): the argument mapping
produced by the superclass (abstract here, its code is outside this file)
extended with `fn_reference` and `fn_compare` bound to the reference and
compare callables. -/
def optimizer_arguments {V : Type} (super_args : String → Option V)
    (fn_reference fn_compare : V) : String → Option V :=
  dict_set (dict_set super_args "fn_reference" fn_reference) "fn_compare" fn_compare

/-! ## Helper lemmas -/

/-- A list all of whose entries are `1` sums to its length. -/
theorem sum_eq_length_of_all_one (xs : List α) (h1 : ∀ x ∈ xs, x = (1 : α)) :
    xs.sum = (xs.length : α) := by
  induction xs with
  | nil => simp
  | cons a t ih =>
      have ha := h1 a (List.mem_cons_self a t)
      have ht : ∀ x ∈ t, x = (1 : α) := fun x hx => h1 x (List.mem_cons_of_mem a hx)
      simp [ha, ih ht, add_comm]

/-- The mean of a nonempty list all of whose entries are `1` is `1`. -/
theorem reduce_mean_all_one (xs : List α) (h1 : ∀ x ∈ xs, x = (1 : α))
    (h0 : xs ≠ []) : reduce_mean xs = 1 := by
  unfold reduce_mean
  rw [sum_eq_length_of_all_one xs h1]
  have : (xs.length : α) ≠ 0 := by
    exact_mod_cast Nat.cast_ne_zero.mpr (by simpa using List.length_pos.mpr h0 |>.ne')
  exact div_self this

/-- The code's `clip_by_value` coincides with the spec's `clamp` whenever
the bounds are ordered. -/
theorem clip_eq_clamp (t lo hi : α) (h : lo ≤ hi) :
    clip_by_value t lo hi = clamp_spec t lo hi := by
  unfold clip_by_value clamp_spec
  rw [min_max_distrib_right, min_eq_left h, max_comm]

/-- Closed form of the clipped gain: for a nonnegative reward it equals
`min prob_ratio (1 + c) * reward`, the upper clip bound alone. -/
theorem gain_clip_eq (c prob_ratio reward : α) (hw : (0 : α) ≤ reward) :
    gain_per_instance (some c) prob_ratio reward = min prob_ratio (1 + c) * reward := by
  have key : min prob_ratio (min (max prob_ratio (1 / (1 + c))) (1 + c))
      = min prob_ratio (1 + c) := by
    rw [← min_assoc, min_eq_left (le_max_left _ _)]
  simp only [gain_per_instance, clip_by_value]
  rw [← min_mul_of_nonneg _ _ hw, key]

/-- Sorting the key list is invariant under permutation of the insertion
order. -/
theorem sorted_names_perm_eq (names₁ names₂ : List ℕ) (hperm : names₁.Perm names₂) :
    sorted_names names₁ = sorted_names names₂ := by
  unfold sorted_names
  exact List.eq_of_perm_of_sorted
    (((List.perm_insertionSort _ names₁).trans hperm).trans
      (List.perm_insertionSort _ names₂).symm)
    (List.sorted_insertionSort _ names₁)
    (List.sorted_insertionSort _ names₂)

/-! ## Claims -/

/-- C1 (corrected): in the concrete compare scenario (batch 2, reward
`[1, -1]`, threshold `1/5`, ratios `[3/2, 1/2]`) the code's clipped
ratios are `[6/5, 5/6]` (not `[1.2, 0.8]`: the lower clip bound is
`1/(1+ε) = 5/6`, not `1-ε`), the per-instance gains are `[6/5, -5/6]`
(not `[1.2, -0.5]`), and the batch-mean gain before regularization
subtraction is `11/60` (not `0.35`). -/
theorem claim_C1_counterexample :
    clip_by_value ((1 : ℚ) / 2) (1 / (1 + 1 / 5)) (1 + 1 / 5) = 5 / 6 ∧
    (5 / 6 : ℚ) ≠ 4 / 5 ∧
    gain_per_instance (some ((1 : ℚ) / 5)) (1 / 2) (-1) = -(5 / 6) ∧
    (-(5 / 6) : ℚ) ≠ -(1 / 2) ∧
    compare_gain (some ((1 : ℚ) / 5)) [3 / 2, 1 / 2] [1, -1] [] = 11 / 60 ∧
    (11 / 60 : ℚ) ≠ 7 / 20 := by
  norm_num [compare_gain, gain_per_instance, clip_by_value, reduce_mean, min_def, max_def]

/-- C1 (amended): for the compare computation with clip threshold
`ε = 1/5`, batch size 2, per-instance ratios `[3/2, 1/2]` and rewards
`[1, -1]`, the clipped ratios are `[6/5, 5/6]`, the per-instance gains
`min(ratio*reward, clipped*reward)` are `[6/5, -5/6]`, and the batch-mean
gain before regularization subtraction is `11/60`. -/
theorem claim_C1 :
    List.map (fun r => clip_by_value r (1 / (1 + 1 / 5)) (1 + 1 / 5))
        [(3 : ℚ) / 2, 1 / 2] = [6 / 5, 5 / 6] ∧
    List.zipWith (gain_per_instance (some ((1 : ℚ) / 5))) [3 / 2, 1 / 2] [1, -1]
        = [6 / 5, -(5 / 6)] ∧
    compare_gain (some ((1 : ℚ) / 5)) [3 / 2, 1 / 2] [1, -1] [] = 11 / 60 := by
  norm_num [compare_gain, gain_per_instance, clip_by_value, reduce_mean, min_def, max_def]

/-- C2: for every per-instance combined prob ratio and reward, the final
step of `tf_loss_per_instance` returns `-(ratio * reward)` when the clip
threshold is absent, and `-min(ratio * reward, clipped * reward)` with
`clipped = clamp(ratio, 1/(1+c), 1+c)` (the min taken on the signed
products) when a threshold `c > 0` is set. -/
theorem claim_C2 (prob_ratio reward : ℚ) :
    loss_final none prob_ratio reward = -(prob_ratio * reward) ∧
    ∀ c : ℚ, 0 < c →
      loss_final (some c) prob_ratio reward =
        -(min (prob_ratio * reward)
            (clamp_spec prob_ratio (1 / (1 + c)) (1 + c) * reward)) := by
  constructor
  · simp [loss_final, neg_mul]
  · intro c hc
    have h1c : (0 : ℚ) < 1 + c := by linarith
    have hlo : 1 / (1 + c) ≤ 1 + c := by
      have h1 : 1 / (1 + c) ≤ 1 := by rw [div_le_one h1c]; linarith
      linarith
    simp only [loss_final]
    rw [clip_eq_clamp _ _ _ hlo]

/-- Witness for C2 at ratio `2`, reward `3`, threshold `1`. -/
theorem claim_C2_witness :
    loss_final (some (1 : ℚ)) 2 3 =
      -(min ((2 : ℚ) * 3) (clamp_spec 2 (1 / (1 + 1)) (1 + 1) * 3)) :=
  (claim_C2 2 3).2 1 (by decide)

/-- C3: construction fails with the assertion error exactly when
`likelihood_ratio_clipping` is present and nonpositive; for `none` or any
positive value construction succeeds and stores the threshold
unmodified. -/
theorem claim_C3 (clip : Option ℚ) :
    ((clip = none ∨ ∃ c, clip = some c ∧ 0 < c) → init clip = Except.ok ⟨clip⟩) ∧
    (init clip = Except.error InitError.assertionError ↔ ∃ c, clip = some c ∧ c ≤ 0) := by
  constructor
  · rintro (rfl | ⟨c, rfl, hc⟩)
    · rfl
    · simp [init, if_pos hc]
  · cases clip with
    | none => simp [init]
    | some c =>
        by_cases hc : 0 < c
        · simp [init, hc, not_le.mpr hc]
        · simp [init, hc, not_lt.mp hc]

/-- Witness for C3 at threshold `some 1`. -/
theorem claim_C3_witness : init (some (1 : ℚ)) = Except.ok ⟨some 1⟩ :=
  (claim_C3 (some 1)).1 (Or.inr ⟨1, rfl, by decide⟩)

omit [LinearOrderedField α] in
/-- Helper: mapping the identity-acting reshape over rows changes
nothing. -/
theorem map_reshape_collapse (rows : List (List α)) :
    rows.map reshape_collapse = rows := by
  induction rows with
  | nil => rfl
  | cons r t ih => simp [reshape_collapse, ih]

/-- C4: when `reference` is computed and its result passed to `compare`
with the same policy parameters — so the per-channel log-probability rows
`g` recomputed in `compare` equal the rows `f` used in `reference` on
every channel — the per-instance prob ratio inside `compare` equals 1. -/
theorem claim_C4 (f g : ℕ → List ℝ) (names : List ℕ)
    (hsame : ∀ n ∈ names, g n = f n) :
    compare_prob_ratio g names (tf_reference f names) = 1 := by
  have hmap : (sorted_names names).map (fun n => reshape_collapse (g n))
      = (sorted_names names).map (fun n => reshape_collapse (f n)) := by
    apply List.map_congr_left
    intro n hn
    rw [hsame n (by simpa [sorted_names] using hn)]
  simp only [compare_prob_ratio, compare_log_prob, tf_reference, hmap, sub_self,
    Real.exp_zero]

/-- Witness for C4 at one channel with log-prob row `[0]`. -/
theorem claim_C4_witness :
    compare_prob_ratio (fun _ => [(0 : ℝ)]) [1]
      (tf_reference (fun _ => [(0 : ℝ)]) [1]) = 1 :=
  claim_C4 (fun _ => [(0 : ℝ)]) (fun _ => [(0 : ℝ)]) [1] (fun _ _ => rfl)

/-- C5: on a forward evaluation of `tf_loss_per_instance` every prob-ratio
entry `exp(log_prob - stop_gradient(log_prob))` equals 1, hence the
combined per-instance ratio equals 1, and with the clip threshold absent
the per-instance loss equals `-reward`. -/
theorem claim_C5 (log_prob_rows : List (List ℝ)) (reward : ℝ)
    (h0 : List.flatten log_prob_rows ≠ []) :
    (∀ row ∈ log_prob_rows, ∀ lp ∈ row, prob_ratio_entry lp = 1) ∧
    loss_combined_ratio log_prob_rows = 1 ∧
    tf_loss_per_instance none log_prob_rows reward = -reward := by
  have hentry : ∀ lp : ℝ, prob_ratio_entry lp = 1 := by
    intro lp
    simp [prob_ratio_entry, stop_gradient]
  have hcr : loss_combined_ratio log_prob_rows = 1 := by
    unfold loss_combined_ratio
    apply reduce_mean_all_one
    · intro x hx
      rcases List.mem_flatten.mp hx with ⟨l, hl, hxl⟩
      rcases List.mem_map.mp hl with ⟨row, hrow, rfl⟩
      rcases List.mem_map.mp (by simpa [reshape_collapse] using hxl) with ⟨lp, hlp, rfl⟩
      exact hentry lp
    · simp only [ne_eq, List.flatten_eq_nil_iff] at h0 ⊢
      intro hall
      apply h0
      intro l hl
      have hthis := hall (reshape_collapse (l.map prob_ratio_entry))
        (List.mem_map_of_mem _ hl)
      simpa [reshape_collapse] using hthis
  refine ⟨fun row _ lp _ => hentry lp, hcr, ?_⟩
  unfold tf_loss_per_instance
  rw [hcr]
  simp [loss_final]

/-- Witness for C5 at one channel with log-prob row `[0]` and reward `5`. -/
theorem claim_C5_witness :
    loss_combined_ratio [[(0 : ℝ)]] = 1 ∧
    tf_loss_per_instance none [[(0 : ℝ)]] 5 = -5 :=
  ⟨(claim_C5 [[(0 : ℝ)]] 5 (by simp)).2.1, (claim_C5 [[(0 : ℝ)]] 5 (by simp)).2.2⟩

/-- C6: for the same name-to-row contents, permuting the insertion order
of the action-channel dict changes neither the output of `tf_reference`
nor the recomputed prob ratio nor the per-instance gain of `tf_compare`,
because both iterate the channels in name-sorted order. -/
theorem claim_C6 (f : ℕ → List ℝ) (names₁ names₂ : List ℕ) (clip : Option ℝ)
    (reference reward : ℝ) (hperm : names₁.Perm names₂) :
    tf_reference f names₁ = tf_reference f names₂ ∧
    compare_prob_ratio f names₁ reference = compare_prob_ratio f names₂ reference ∧
    compare_gain_per_instance clip f names₁ reference reward
      = compare_gain_per_instance clip f names₂ reference reward := by
  have hs := sorted_names_perm_eq names₁ names₂ hperm
  refine ⟨?_, ?_, ?_⟩ <;>
    simp [tf_reference, compare_prob_ratio, compare_log_prob,
      compare_gain_per_instance, hs]

/-- Witness for C6 at key lists `[2, 1]` and `[1, 2]`. -/
theorem claim_C6_witness :
    tf_reference (fun _ => [(0 : ℝ)]) [2, 1] = tf_reference (fun _ => [(0 : ℝ)]) [1, 2] :=
  (claim_C6 (fun _ => [(0 : ℝ)]) [2, 1] [1, 2] none 0 0 (by decide)).1

/-- C7: `tf_compare` reduces the per-instance gains to their batch mean
and subtracts the sum of the regularization-loss values exactly when that
mapping is nonempty; an empty mapping leaves the gain unmodified. -/
theorem claim_C7 (clip : Option ℚ) (prob_ratios rewards reg_losses : List ℚ) :
    (reg_losses = [] →
      compare_gain clip prob_ratios rewards reg_losses
        = reduce_mean (List.zipWith (gain_per_instance clip) prob_ratios rewards)) ∧
    (reg_losses ≠ [] →
      compare_gain clip prob_ratios rewards reg_losses
        = reduce_mean (List.zipWith (gain_per_instance clip) prob_ratios rewards)
            - reg_losses.sum) := by
  constructor
  · rintro rfl
    simp [compare_gain]
  · intro hne
    have hlen : 0 < reg_losses.length := List.length_pos.mpr hne
    simp [compare_gain, hlen]

/-- Witness for C7 with an empty and with a singleton loss mapping. -/
theorem claim_C7_witness :
    compare_gain none [(1 : ℚ)] [2] []
      = reduce_mean (List.zipWith (gain_per_instance none) [(1 : ℚ)] [2]) ∧
    compare_gain none [(1 : ℚ)] [2] [3]
      = reduce_mean (List.zipWith (gain_per_instance none) [(1 : ℚ)] [2])
          - List.sum [(3 : ℚ)] :=
  ⟨(claim_C7 none [1] [2] []).1 rfl, (claim_C7 none [1] [2] [3]).2 (by decide)⟩

/-- C8 (corrected): the reshape in `tf_loss_per_instance` does not yield
one scalar per instance (a channel of collapsed size 2 keeps 2 entries),
and the final mean does not weight channels equally: on collapsed rows
`[[1], [2, 4]]` the code averages all joined entries to `7/3`, while the
equal-weight channel average would be `2`. -/
theorem claim_C8_counterexample :
    (reshape_collapse [(2 : ℚ), 4]).length ≠ 1 ∧
    combined_prob_ratio [[(1 : ℚ)], [2, 4]] = 7 / 3 ∧
    combined_prob_ratio_claim [[(1 : ℚ)], [2, 4]] = 2 ∧
    combined_prob_ratio [[(1 : ℚ)], [2, 4]]
      ≠ combined_prob_ratio_claim [[(1 : ℚ)], [2, 4]] := by
  norm_num [combined_prob_ratio, combined_prob_ratio_claim, reshape_collapse,
    reduce_mean]

/-- Helper: when every row is a singleton, flattening the rows is the same
as taking each row's mean. -/
theorem flatten_eq_map_of_singleton (rows : List (List ℚ))
    (h : ∀ row ∈ rows, row.length = 1) :
    List.flatten rows = rows.map reduce_mean := by
  induction rows with
  | nil => rfl
  | cons row rest ih =>
      rcases List.length_eq_one.mp (h row (by simp)) with ⟨a, rfl⟩
      have hrest := ih (fun r hr => h r (by simp [hr]))
      simp [hrest, reduce_mean]

/-- C8 (amended): each channel's per-instance ratio tensor is reshaped to
its `collapsed_size` scalars per instance (all non-batch dimensions merged,
not reduced to one scalar); the rows are concatenated along the channel
axis and averaged over all joined entries, yielding exactly one combined
ratio per instance in which each channel contributes weight proportional
to its collapsed size — equal weight exactly in the special case that
every channel collapses to a single scalar. -/
theorem claim_C8 (rows : List (List ℚ)) :
    (∀ entries : List ℚ,
      (reshape_collapse entries).length = collapsed_size [entries.length]) ∧
    combined_prob_ratio rows
      = (List.flatten rows).sum / ((List.flatten rows).length : ℚ) ∧
    ((∀ row ∈ rows, row.length = 1) →
      combined_prob_ratio rows = combined_prob_ratio_claim rows) := by
  refine ⟨?_, ?_, ?_⟩
  · intro entries
    simp [reshape_collapse, collapsed_size]
  · simp [combined_prob_ratio, reduce_mean, map_reshape_collapse]
  · intro h
    simp only [combined_prob_ratio, combined_prob_ratio_claim, map_reshape_collapse]
    rw [flatten_eq_map_of_singleton rows h]

/-- Witness for C8 at the singleton-channel rows `[[2], [3]]`. -/
theorem claim_C8_witness :
    combined_prob_ratio [[(2 : ℚ)], [3]] = combined_prob_ratio_claim [[(2 : ℚ)], [3]] :=
  (claim_C8 [[(2 : ℚ)], [3]]).2.2 (by decide)

/-- C9: for a fixed ratio and a fixed positive reward, the clipped
per-instance gain is monotonically non-decreasing in the clip
threshold. -/
theorem claim_C9 (prob_ratio reward c₁ c₂ : ℚ) (hw : 0 < reward) (_hc : 0 < c₁)
    (hcc : c₁ ≤ c₂) :
    gain_per_instance (some c₁) prob_ratio reward
      ≤ gain_per_instance (some c₂) prob_ratio reward := by
  rw [gain_clip_eq c₁ _ _ hw.le, gain_clip_eq c₂ _ _ hw.le]
  exact mul_le_mul_of_nonneg_right (min_le_min le_rfl (by linarith)) hw.le

/-- Witness for C9 at ratio `3`, reward `1`, thresholds `1 ≤ 2`. -/
theorem claim_C9_witness :
    gain_per_instance (some (1 : ℚ)) 3 1 ≤ gain_per_instance (some (2 : ℚ)) 3 1 :=
  claim_C9 3 1 1 2 (by decide) (by decide) (by decide)

/-- C10: `optimizer_arguments` returns the superclass mapping extended
with `fn_reference` and `fn_compare` bound to the two callables, every
other key passing through unchanged. -/
theorem claim_C10 {V : Type} (super_args : String → Option V)
    (fn_reference fn_compare : V) :
    optimizer_arguments super_args fn_reference fn_compare "fn_reference"
      = some fn_reference ∧
    optimizer_arguments super_args fn_reference fn_compare "fn_compare"
      = some fn_compare ∧
    ∀ k : String, k ≠ "fn_reference" → k ≠ "fn_compare" →
      optimizer_arguments super_args fn_reference fn_compare k = super_args k := by
  refine ⟨?_, ?_, ?_⟩
  · simp [optimizer_arguments, dict_set]
  · simp [optimizer_arguments, dict_set]
  · intro k h1 h2
    simp [optimizer_arguments, dict_set, h1, h2]

/-- Witness for C10 at a constant superclass mapping and the key `"x"`. -/
theorem claim_C10_witness :
    optimizer_arguments (fun _ => some (7 : ℕ)) 1 2 "fn_reference" = some 1 ∧
    optimizer_arguments (fun _ => some (7 : ℕ)) 1 2 "fn_compare" = some 2 ∧
    optimizer_arguments (fun _ => some (7 : ℕ)) 1 2 "x" = some 7 :=
  ⟨(claim_C10 (fun _ => some (7 : ℕ)) 1 2).1,
   (claim_C10 (fun _ => some (7 : ℕ)) 1 2).2.1,
   (claim_C10 (fun _ => some (7 : ℕ)) 1 2).2.2 "x" (by decide) (by decide)⟩

end PGProbRatio
